import Mathlib

/-!
Shallow embedding of the TAIFEX market-data SDK (C++ sources) and proofs of
the specification claims about it.

Conventions of the embedding:
* raw bytes are `Nat` values (always below 256 in the intended domain; where a
  C++ narrowing cast matters it is made explicit with a modulus);
* C++ `std::string` values are `List Char`;
* C++ `std::map` members are association lists `List (K × V)` manipulated only
  through `alFind` / `alSet` / `alErase`, which have exactly the lookup,
  insert-or-assign and erase semantics of `std::map` (iteration order is not
  used by any claim and is abstracted away);
* functions that throw in C++ return `Option`, with `none` for the thrown
  path.
-/

set_option maxRecDepth 8192

namespace TaifexModel

/-! ## Definitions -/

/-! ### Association-list model of std::map -/

/-- Lookup of a key, as `std::map::find`. -/
def alFind {K V : Type} [DecidableEq K] (k : K) : List (K × V) → Option V
| [] => none
| (k', v) :: t => if k' = k then some v else alFind k t

/-- Insert-or-assign, as `std::map::operator[]` followed by assignment. -/
def alSet {K V : Type} [DecidableEq K] (k : K) (v : V) : List (K × V) → List (K × V)
| [] => [(k, v)]
| (k', v') :: t => if k' = k then (k, v) :: t else (k', v') :: alSet k v t

/-- Erase by key, as `std::map::erase`. -/
def alErase {K V : Type} [DecidableEq K] (k : K) : List (K × V) → List (K × V)
| [] => []
| (k', v') :: t => if k' = k then t else (k', v') :: alErase k t

/-! ### XOR checksum (`CoreUtils::calculateXorChecksum`, checksum.cpp) -/

/-- Embedding of `CoreUtils::calculateXorChecksum`: if the range is empty the
result is 0, otherwise the left fold of bitwise XOR starting from 0. -/
def calculateXorChecksum (data : List Nat) : Nat :=
  if data = [] then 0 else data.foldl (· ^^^ ·) 0

/-! ### Packed-BCD decode (`CoreUtils::packBcdToAscii`, pack_bcd.cpp) -/

/-- High nibble of a byte, `(byte >> 4) & 0x0F`. -/
def nibbleHigh (b : Nat) : Nat := (b / 16) % 16

/-- Low nibble of a byte, `byte & 0x0F`. -/
def nibbleLow (b : Nat) : Nat := b % 16

/-- ASCII digit character for a nibble value, `nibble + '0'`. -/
def digitChar (n : Nat) : Char := Char.ofNat (n + 48)

/-- The per-byte decoding loop of `packBcdToAscii`: two digits per byte, a
nibble above 9 raises (modelled as `none`). -/
def decodeBcdBytes : List Nat → Option (List Char)
| [] => some []
| b :: t =>
  if 9 < nibbleHigh b ∨ 9 < nibbleLow b then none
  else
    match decodeBcdBytes t with
    | none => none
    | some s => some (digitChar (nibbleHigh b) :: digitChar (nibbleLow b) :: s)

/-- Embedding of `CoreUtils::packBcdToAscii(bcd_data, num_digits)`: decode all
nibbles (failing on any nibble above 9), then right-align the digit string to
`numDigits` characters; `numDigits = 0` returns the full string. -/
def packBcdToAscii (bcd : List Nat) (numDigits : Nat) : Option (List Char) :=
  (decodeBcdBytes bcd).map fun full =>
    if numDigits = 0 then full
    else if full.length < numDigits then
      List.replicate (numDigits - full.length) '0' ++ full
    else if numDigits < full.length then
      full.drop (full.length - numDigits)
    else full

/-- Specification-side digit string: each byte contributes its two nibble
digits, high nibble first, with no validity check and no alignment. -/
def bcdDigitString (bcd : List Nat) : List Char :=
  bcd.foldr (fun b s => digitChar (nibbleHigh b) :: digitChar (nibbleLow b) :: s) []

/-! ### Sign application (`OrderBookManagement::apply_sign_to_price`,
order_book.cpp) -/

/-- Embedding of `apply_sign_to_price`: the sign character merges into the
price magnitude; only a strictly positive magnitude is negated by a minus
sign. -/
def apply_sign_to_price (price_magnitude : Int) (sign_char : Char) : Int :=
  if sign_char = '-' then
    (if 0 < price_magnitude then -price_magnitude else price_magnitude)
  else price_magnitude

/-! ### Typed message records (messages/message_i081.h,
messages/message_i083.h, messages/message_i010.h) -/

/-- One repeating entry of an I081 order-book update. -/
structure MdEntryI081 where
  md_update_action : Char
  md_entry_type : Char
  sign : Char
  md_entry_px : Int
  md_entry_size : Int
  md_price_level : Nat
  deriving DecidableEq, Repr

/-- Parsed I081 order-book update body. -/
structure MessageI081 where
  prod_id : List Char
  prod_msg_seq : Nat
  no_md_entries : Nat
  md_entries : List MdEntryI081
  deriving DecidableEq, Repr

/-- One repeating entry of an I083 order-book snapshot. -/
structure MdEntryI083 where
  md_entry_type : Char
  sign : Char
  md_entry_px : Int
  md_entry_size : Int
  md_price_level : Nat
  deriving DecidableEq, Repr

/-- Parsed I083 order-book snapshot body. -/
structure MessageI083 where
  prod_id : List Char
  prod_msg_seq : Nat
  calculated_flag : Char
  no_md_entries : Nat
  md_entries : List MdEntryI083
  deriving DecidableEq, Repr

/-- Parsed I010 product-basic body. -/
structure MessageI010 where
  prod_id_s : List Char
  reference_price : Int
  prod_kind : Char
  decimal_locator : Nat
  strike_price_decimal_locator : Nat
  begin_date : List Char
  end_date : List Char
  flow_group : Nat
  delivery_date : List Char
  dynamic_banding : Char
  deriving DecidableEq, Repr

/-! ### Order book (order_book.h / order_book.cpp) -/

/-- The `static_cast<QuantityType>` of the `int64_t` size field: conversion to
`uint64_t`, i.e. reduction modulo 2 to the 64th (the literal below). -/
def toQuantity (x : Int) : Nat := (x % (18446744073709551616 : Int)).toNat

/-- State of `OrderBookManagement::OrderBook`. `bids_` and `asks_` are
`std::map` keyed by signed price; the derived slots are `std::optional`. -/
structure OrderBook where
  product_id : List Char
  decimal_locator : Nat
  bids : List (Int × Nat)
  asks : List (Int × Nat)
  derived_bid : Option (Int × Nat)
  derived_ask : Option (Int × Nat)
  last_prod_msg_seq : Nat
  deriving DecidableEq, Repr

/-- `OrderBook::reset`: clear both maps and both derived slots and zero the
last product-message sequence; identity fields stay. -/
def OrderBook.reset (b : OrderBook) : OrderBook :=
  { b with bids := [], asks := [], derived_bid := none, derived_ask := none,
           last_prod_msg_seq := 0 }

/-- The body of the per-entry `switch` in `OrderBook::apply_update`. -/
def OrderBook.applyUpdateEntry (b : OrderBook) (e : MdEntryI081) : OrderBook :=
  let p := apply_sign_to_price e.md_entry_px e.sign
  let q := toQuantity e.md_entry_size
  if e.md_entry_type = '0' then
    if e.md_update_action = '0' then
      if 0 < q then { b with bids := alSet p q b.bids } else b
    else if e.md_update_action = '1' then
      match alFind p b.bids with
      | some _ =>
        if 0 < q then { b with bids := alSet p q b.bids }
        else { b with bids := alErase p b.bids }
      | none =>
        if 0 < q then { b with bids := alSet p q b.bids } else b
    else if e.md_update_action = '2' then { b with bids := alErase p b.bids }
    else b
  else if e.md_entry_type = '1' then
    if e.md_update_action = '0' then
      if 0 < q then { b with asks := alSet p q b.asks } else b
    else if e.md_update_action = '1' then
      match alFind p b.asks with
      | some _ =>
        if 0 < q then { b with asks := alSet p q b.asks }
        else { b with asks := alErase p b.asks }
      | none =>
        if 0 < q then { b with asks := alSet p q b.asks } else b
    else if e.md_update_action = '2' then { b with asks := alErase p b.asks }
    else b
  else if e.md_entry_type = 'E' then
    if e.md_update_action = '5' then
      if 0 < q ∨ p ≠ 0 then { b with derived_bid := some (p, q) }
      else { b with derived_bid := none }
    else b
  else if e.md_entry_type = 'F' then
    if e.md_update_action = '5' then
      if 0 < q ∨ p ≠ 0 then { b with derived_ask := some (p, q) }
      else { b with derived_ask := none }
    else b
  else b

/-- Embedding of `OrderBook::apply_update`: the sequence field is advanced
when the record's sequence is greater than the stored one or the stored one is
0 (the `return` in the older-sequence branch is commented out in the source,
so the entry loop runs regardless), then every entry is applied in order. -/
def OrderBook.apply_update (b : OrderBook) (m : MessageI081) : OrderBook :=
  let b1 :=
    if b.last_prod_msg_seq < m.prod_msg_seq ∨ b.last_prod_msg_seq = 0 then
      { b with last_prod_msg_seq := m.prod_msg_seq }
    else b
  m.md_entries.foldl OrderBook.applyUpdateEntry b1

/-- The body of the per-entry `switch` in `OrderBook::apply_snapshot`. -/
def OrderBook.applySnapshotEntry (flag : Char) (b : OrderBook) (e : MdEntryI083) :
    OrderBook :=
  let p := apply_sign_to_price e.md_entry_px e.sign
  let q := toQuantity e.md_entry_size
  if e.md_entry_type = '0' then
    if 0 < q then { b with bids := alSet p q b.bids } else b
  else if e.md_entry_type = '1' then
    if 0 < q then { b with asks := alSet p q b.asks } else b
  else if e.md_entry_type = 'E' then
    if flag = '0' then
      if 0 < q ∨ p ≠ 0 then { b with derived_bid := some (p, q) }
      else { b with derived_bid := none }
    else b
  else if e.md_entry_type = 'F' then
    if flag = '0' then
      if 0 < q ∨ p ≠ 0 then { b with derived_ask := some (p, q) }
      else { b with derived_ask := none }
    else b
  else b

/-- Embedding of `OrderBook::apply_snapshot`: reset the book, take the
record's sequence, then apply every entry in order. -/
def OrderBook.apply_snapshot (b : OrderBook) (m : MessageI083) : OrderBook :=
  let b1 := { b.reset with last_prod_msg_seq := m.prod_msg_seq }
  m.md_entries.foldl (OrderBook.applySnapshotEntry m.calculated_flag) b1

/-- Signed price of an I083 entry: the sign character merged into the price
magnitude, as `apply_snapshot` computes it. -/
def signedPx (e : MdEntryI083) : Int := apply_sign_to_price e.md_entry_px e.sign

/-- Quantity of an I083 entry after the `uint64_t` cast, as `apply_snapshot`
computes it. -/
def entryQty (e : MdEntryI083) : Nat := toQuantity e.md_entry_size

/-- The quantity carried by the last entry of the list whose type is `ty`,
whose quantity is positive and whose signed price is `p` (the value such an
entry leaves in the book map after the snapshot fold). -/
def lastPositiveQty (ty : Char) (p : Int) : List MdEntryI083 → Option Nat
| [] => none
| e :: t =>
  match lastPositiveQty ty p t with
  | some q => some q
  | none =>
    if e.md_entry_type = ty ∧ 0 < entryQty e ∧ p = signedPx e then
      some (entryQty e)
    else none

/-! ### Per-channel sequence tracker (taifex_sdk.cpp, is_sequence_valid and
handle_i002) -/

/-- The branch `TaifexSdk::is_sequence_valid` takes for one observation,
carrying the data its log line reports. -/
inductive SeqClassification where
| FirstSeen (seq : Nat)
| InOrder
| Replay
| Gap (expected got : Nat)
  deriving DecidableEq, Repr

/-- Embedding of `TaifexSdk::is_sequence_valid`: returns the classification,
the C++ `bool` result, and the updated `channel_sequences_` map. -/
def is_sequence_valid (chans : List (Nat × Nat)) (channel_id seq : Nat) :
    SeqClassification × Bool × List (Nat × Nat) :=
  match alFind channel_id chans with
  | none => (.FirstSeen seq, true, alSet channel_id seq chans)
  | some last =>
    if seq = last + 1 then (.InOrder, true, alSet channel_id seq chans)
    else if seq ≤ last then (.Replay, false, chans)
    else (.Gap (last + 1) seq, false, alSet channel_id seq chans)

/-- Feed a list of observed sequences through `is_sequence_valid` on one
channel, collecting the classifications and the final map. -/
def runSequence (channel_id : Nat) :
    List (Nat × Nat) → List Nat → List SeqClassification × List (Nat × Nat)
| chans, [] => ([], chans)
| chans, s :: rest =>
  let step := is_sequence_valid chans channel_id s
  let tail := runSequence channel_id step.2.2 rest
  (step.1 :: tail.1, tail.2)

/-! ### Common header (common_header.h / common_header.cpp) -/

/-- Raw 19-byte common header as `CommonHeader::parse` stores it. -/
structure CommonHeader where
  esc_code : Nat
  transmission_code : Nat
  message_kind : Nat
  information_time_bcd : List Nat
  channel_id_bcd : List Nat
  channel_seq_bcd : List Nat
  version_no_bcd : Nat
  body_length_bcd : List Nat
  deriving DecidableEq, Repr

/-- Digit string to numeric value, as `std::stoul` / `std::stoll` on an
all-digit string. -/
def digitsToNat (s : List Char) : Nat :=
  s.foldl (fun a c => a * 10 + (c.toNat - 48)) 0

/-- BCD byte range to numeric field value: `packBcdToAscii` then string
conversion. A BCD error (which the C++ surfaces as an exception or an empty
helper string that the caller rejects) is `none`. -/
def bcdFieldValue (bytes : List Nat) (numDigits : Nat) : Option Nat :=
  (packBcdToAscii bytes numDigits).map digitsToNat

/-- `CommonHeader::parse`: requires at least 19 bytes and copies the fixed
slices. -/
def CommonHeader.parse (buffer : List Nat) : Option CommonHeader :=
  if buffer.length < 19 then none
  else some {
    esc_code := buffer.getD 0 0,
    transmission_code := buffer.getD 1 0,
    message_kind := buffer.getD 2 0,
    information_time_bcd := (buffer.drop 3).take 6,
    channel_id_bcd := (buffer.drop 9).take 2,
    channel_seq_bcd := (buffer.drop 11).take 5,
    version_no_bcd := buffer.getD 16 0,
    body_length_bcd := (buffer.drop 17).take 2 }

/-- `CommonHeader::getBodyLength`: 4 BCD digits from 2 bytes (a thrown
`ParsingError` is `none`; the value is at most 9999, inside `uint16_t`). -/
def CommonHeader.getBodyLength (h : CommonHeader) : Option Nat :=
  bcdFieldValue h.body_length_bcd 4

/-- `CommonHeader::getChannelId`: 4 BCD digits from 2 bytes. -/
def CommonHeader.getChannelId (h : CommonHeader) : Option Nat :=
  bcdFieldValue h.channel_id_bcd 4

/-- `CommonHeader::getChannelSeq`: 10 BCD digits from 5 bytes. -/
def CommonHeader.getChannelSeq (h : CommonHeader) : Option Nat :=
  bcdFieldValue h.channel_seq_bcd 10

/-! ### SDK facade (sdk/taifex_sdk.h / sdk/taifex_sdk.cpp) -/

/-- The mutable state owned by `Taifex::TaifexSdk`. -/
structure SdkState where
  initialized : Bool
  product_info_cache : List (List Char × MessageI010)
  order_books : List (List Char × OrderBook)
  channel_sequences : List (Nat × Nat)
  deriving DecidableEq, Repr

/-- Embedding of the static `get_base_prod_id_for_i010_lookup`: the portion
before the first slash when one is present, otherwise the first 10 characters
when longer than 10, otherwise the id unchanged. The two `CoreUtils::trim`
calls in the source are commented out, so no trimming happens. -/
def get_base_prod_id_for_i010_lookup (prod_id_from_message : List Char) :
    List Char :=
  match prod_id_from_message.findIdx? (· = '/') with
  | some slash_pos => prod_id_from_message.take slash_pos
  | none =>
    if 10 < prod_id_from_message.length then prod_id_from_message.take 10
    else prod_id_from_message

/-- Specification-side trailing-space trimming ("trim trailing spaces"), for
comparison with what the code computes. -/
def trimTrailingSpaces (s : List Char) : List Char :=
  (s.reverse.dropWhile (· = ' ')).reverse

/-- Embedding of `TaifexSdk::get_or_create_order_book`: an existing book under
the full id is returned; otherwise the book is created only when the
product-info cache holds the derived short id, else the result is `none` and
nothing changes. -/
def get_or_create_order_book (st : SdkState)
    (product_id_from_message_body : List Char) : Option OrderBook × SdkState :=
  match alFind product_id_from_message_body st.order_books with
  | some ob => (some ob, st)
  | none =>
    let base_prod_id := get_base_prod_id_for_i010_lookup product_id_from_message_body
    match alFind base_prod_id st.product_info_cache with
    | some product_info =>
      let ob : OrderBook :=
        { product_id := product_id_from_message_body,
          decimal_locator := product_info.decimal_locator,
          bids := [], asks := [], derived_bid := none, derived_ask := none,
          last_prod_msg_seq := 0 }
      (some ob,
        { st with order_books := alSet product_id_from_message_body ob st.order_books })
    | none => (none, st)

/-- `TaifexSdk::handle_i010` on a successfully parsed record: store it in the
product-info cache under its (untrimmed) 10-char short id. -/
def handle_i010 (st : SdkState) (m : MessageI010) : SdkState :=
  { st with product_info_cache := alSet m.prod_id_s m st.product_info_cache }

/-- `TaifexSdk::handle_i081` on a successfully parsed record: look up or
create the book and apply the update; without a book the state is returned
as is (the message is dropped). -/
def handle_i081 (st : SdkState) (m : MessageI081) : SdkState :=
  match get_or_create_order_book st m.prod_id with
  | (some ob, st') =>
    { st' with order_books := alSet m.prod_id (ob.apply_update m) st'.order_books }
  | (none, st') => st'

/-- `TaifexSdk::handle_i083` on a successfully parsed record, analogous to
`handle_i081` with `apply_snapshot`. -/
def handle_i083 (st : SdkState) (m : MessageI083) : SdkState :=
  match get_or_create_order_book st m.prod_id with
  | (some ob, st') =>
    { st' with order_books := alSet m.prod_id (ob.apply_snapshot m) st'.order_books }
  | (none, st') => st'

/-- `TaifexSdk::handle_i002` with the channel id already decoded from the
header: reset every order book and set this channel's sequence record to 0. -/
def handle_i002 (st : SdkState) (channel_id : Nat) : SdkState :=
  { st with
    order_books := st.order_books.map (fun kv => (kv.1, kv.2.reset)),
    channel_sequences := alSet channel_id 0 st.channel_sequences }

/-- Embedding of `TaifexSdk::process_message`. Frame validation (length,
header parse, declared-length match, XOR checksum) is followed by
channel-sequence bookkeeping; the body dispatch in the source is commented out
(the function logs "Message dispatch logic currently commented out" and
returns), so no body handler is ever invoked. Log calls and the pure
message-id lookup have no state effect and are omitted; an exception escaping
a BCD header accessor leaves the state as it was at the throw point. -/
def process_message (st : SdkState) (raw_message : List Nat) : SdkState :=
  if st.initialized = false then st
  else if raw_message.length = 0 then st
  else if raw_message.length < 19 + 1 + 2 then st
  else
    match CommonHeader.parse raw_message with
    | none => st
    | some temp_header =>
      match temp_header.getBodyLength with
      | none => st
      | some body_len =>
        if raw_message.length ≠ 19 + body_len + 1 + 2 then st
        else if calculateXorChecksum ((raw_message.drop 1).take (18 + body_len))
            ≠ raw_message.getD (19 + body_len) 0 then st
        else
          match temp_header.getChannelId, temp_header.getChannelSeq with
          | some channel_id, some channel_seq =>
            { st with channel_sequences :=
                (is_sequence_valid st.channel_sequences channel_id channel_seq).2.2 }
          | _, _ => st

/-! ### I081 body parser (messages/message_i081.cpp) -/

/-- `static_cast<char>` of a byte. -/
def readChar (b : Nat) : Char := Char.ofNat (b % 256)

/-- One 13-byte repeating entry of an I081 body. -/
def parse_i081_entry (bytes : List Nat) : Option MdEntryI081 :=
  match bcdFieldValue ((bytes.drop 3).take 5) 9 with
  | none => none
  | some px =>
    match bcdFieldValue ((bytes.drop 8).take 4) 8 with
    | none => none
    | some sz =>
      match bcdFieldValue ((bytes.drop 12).take 1) 2 with
      | none => none
      | some lvl =>
        some { md_update_action := readChar (bytes.getD 0 0),
               md_entry_type := readChar (bytes.getD 1 0),
               sign := readChar (bytes.getD 2 0),
               md_entry_px := Int.ofNat px,
               md_entry_size := Int.ofNat sz,
               md_price_level := lvl }

/-- The entry loop of `parse_i081_body`, consuming 13 bytes per entry. -/
def parse_i081_entries : Nat → List Nat → Option (List MdEntryI081)
| 0, _ => some []
| n + 1, bytes =>
  match parse_i081_entry (bytes.take 13) with
  | none => none
  | some e =>
    match parse_i081_entries n (bytes.drop 13) with
    | none => none
    | some es => some (e :: es)

/-- Embedding of `SpecificMessageParsers::parse_i081_body`: 26-byte fixed
prefix (product id 20 chars, product-message sequence 5 BCD bytes read as 10
digits and truncated into `uint32_t` — the modulus below —, entry count 1 BCD
byte read as 2 digits), a guard that the body is long enough for the declared
entries (a `<` comparison, not an equality check), then the 13-byte
entries. -/
def parse_i081_body (body : List Nat) : Option MessageI081 :=
  if body.length < 26 then none
  else
    match bcdFieldValue ((body.drop 20).take 5) 10 with
    | none => none
    | some pms =>
      match bcdFieldValue ((body.drop 25).take 1) 2 with
      | none => none
      | some nme =>
        if body.length < 26 + nme * 13 then none
        else
          (parse_i081_entries nme (body.drop 26)).map fun es =>
            { prod_id := (body.take 20).map readChar,
              prod_msg_seq := pms % 4294967296,
              no_md_entries := nme,
              md_entries := es }

/-! ### Retransmission login check code
(networking/retransmission_protocol.cpp, networking/retransmission_client.cpp) -/

/-- Embedding of `TaifexRetransmission::calculate_check_code` on a digit-only
password: an empty password yields 0; a value beyond `LLONG_MAX` (the literal
below) makes `std::stoll` throw `out_of_range`, which the function catches
and turns into 0; otherwise the value is non-negative (so the `product < 0`
branch is inert) and the result is `((mult_op * value) / 100) % 100`, which is
below 100 and unchanged by the `uint8_t` cast. The product is computed in
`long long`, so the final branch is the source's exact arithmetic only while
`mult_op * value` fits in a signed 64-bit integer. -/
def calculate_check_code (mult_op : Nat) (password : List Char) : Nat :=
  if password = [] then 0
  else if 9223372036854775807 < digitsToNat password then 0
  else (mult_op * digitsToNat password / 100) % 100

/-- `RetransmissionClient::perform_login` sets
`multiplication_operator = 168` and carries
`check_code = calculate_check_code(168, password_)` in the LoginRequest. -/
def perform_login_check_code (password : List Char) : Nat :=
  calculate_check_code 168 password

/-! ### Concrete example inputs used by witnesses and counterexamples -/

/-- A book whose last-applied sequence is 5 and whose maps are empty. -/
def staleSeqBook : OrderBook :=
  { product_id := [], decimal_locator := 0, bids := [], asks := [],
    derived_bid := none, derived_ask := none, last_prod_msg_seq := 5 }

/-- An update with the older sequence 3 carrying one New Buy entry at price
100, size 10. -/
def staleSeqUpdate : MessageI081 :=
  { prod_id := [], prod_msg_seq := 3, no_md_entries := 1,
    md_entries := [{ md_update_action := '0', md_entry_type := '0',
                     sign := '0', md_entry_px := 100, md_entry_size := 10,
                     md_price_level := 1 }] }

/-- An empty fresh order book for the snapshot scenario S4. -/
def snapBookS4 : OrderBook :=
  { product_id := "X                   ".toList, decimal_locator := 2,
    bids := [], asks := [], derived_bid := none, derived_ask := none,
    last_prod_msg_seq := 0 }

/-- The snapshot of scenario S4: sequence 100, two Buy and two Sell levels. -/
def snapMsgS4 : MessageI083 :=
  { prod_id := "X                   ".toList, prod_msg_seq := 100,
    calculated_flag := '0', no_md_entries := 4,
    md_entries :=
      [{ md_entry_type := '0', sign := '0', md_entry_px := 10025,
         md_entry_size := 10, md_price_level := 1 },
       { md_entry_type := '0', sign := '0', md_entry_px := 10000,
         md_entry_size := 5, md_price_level := 2 },
       { md_entry_type := '1', sign := '0', md_entry_px := 10050,
         md_entry_size := 12, md_price_level := 1 },
       { md_entry_type := '1', sign := '0', md_entry_px := 10075,
         md_entry_size := 8, md_price_level := 2 }] }

/-- A fresh book for the duplicate-price snapshot counterexample. -/
def dupSnapBook : OrderBook :=
  { product_id := [], decimal_locator := 0, bids := [], asks := [],
    derived_bid := none, derived_ask := none, last_prod_msg_seq := 0 }

/-- A snapshot listing the same Buy price twice with different positive
sizes. -/
def dupSnapMsg : MessageI083 :=
  { prod_id := [], prod_msg_seq := 7, calculated_flag := '0',
    no_md_entries := 2,
    md_entries :=
      [{ md_entry_type := '0', sign := '0', md_entry_px := 1,
         md_entry_size := 5, md_price_level := 1 },
       { md_entry_type := '0', sign := '0', md_entry_px := 1,
         md_entry_size := 3, md_price_level := 1 }] }

/-- The record produced by parsing an all-zero minimal I081 body. -/
def zeroI081Msg : MessageI081 :=
  { prod_id := List.replicate 20 (Char.ofNat 0), prod_msg_seq := 0,
    no_md_entries := 0, md_entries := [] }

/-! ## Theorems -/

/-! ### Generic association-list lemma -/

theorem alFind_alSet {K V : Type} [DecidableEq K] (k k' : K) (v : V)
    (m : List (K × V)) :
    alFind k' (alSet k v m) = if k' = k then some v else alFind k' m := by
  by_cases hk : k' = k
  · subst hk
    rw [if_pos rfl]
    induction m with
    | nil => simp [alSet, alFind]
    | cons p t ih =>
      obtain ⟨a, b⟩ := p
      by_cases hak : a = k'
      · subst hak; simp [alSet, alFind]
      · simp [alSet, alFind, hak, ih]
  · have hk2 : ¬ k = k' := fun h => hk h.symm
    rw [if_neg hk]
    induction m with
    | nil => simp [alSet, alFind, hk2]
    | cons p t ih =>
      obtain ⟨a, b⟩ := p
      by_cases hak : a = k
      · subst hak; simp [alSet, alFind, hk2]
      · simp [alSet, alFind, hak, ih]

/-! ### XOR-fold lemmas and claim C6 -/

theorem foldl_xor_shift (l : List Nat) :
    ∀ a : Nat, l.foldl (· ^^^ ·) a = a ^^^ l.foldl (· ^^^ ·) 0 := by
  induction l with
  | nil => intro a; simp
  | cons b t ih =>
    intro a
    simp only [List.foldl]
    rw [ih (a ^^^ b), ih (0 ^^^ b), Nat.zero_xor, Nat.xor_assoc]

theorem calculateXorChecksum_eq_foldl (l : List Nat) :
    calculateXorChecksum l = l.foldl (· ^^^ ·) 0 := by
  unfold calculateXorChecksum
  split
  · rename_i h; subst h; rfl
  · rfl

theorem calculateXorChecksum_eq_foldr (l : List Nat) :
    calculateXorChecksum l = l.foldr (· ^^^ ·) 0 := by
  rw [calculateXorChecksum_eq_foldl]
  induction l with
  | nil => rfl
  | cons b t ih =>
    simp only [List.foldl, List.foldr]
    rw [foldl_xor_shift, Nat.zero_xor, ih]

/-- C6: the XOR checksum equals the XOR-fold of the bytes (empty range gives
0), is invariant under reversal, and is a homomorphism from concatenation to
XOR. -/
theorem xor_checksum_algebra :
    (∀ B : List Nat, calculateXorChecksum B = B.foldr (· ^^^ ·) 0)
    ∧ calculateXorChecksum [] = 0
    ∧ (∀ B : List Nat, calculateXorChecksum B.reverse = calculateXorChecksum B)
    ∧ (∀ B C : List Nat,
        calculateXorChecksum B ^^^ calculateXorChecksum C
          = calculateXorChecksum (B ++ C)) := by
  refine ⟨calculateXorChecksum_eq_foldr, rfl, ?_, ?_⟩
  · intro B
    rw [calculateXorChecksum_eq_foldl, calculateXorChecksum_eq_foldr,
      List.foldl_reverse]
    have hc : (fun (x y : Nat) => y ^^^ x) = (fun (x y : Nat) => x ^^^ y) := by
      funext x y; exact Nat.xor_comm y x
    rw [hc]
  · intro B C
    rw [calculateXorChecksum_eq_foldl, calculateXorChecksum_eq_foldl,
      calculateXorChecksum_eq_foldl, List.foldl_append]
    conv_rhs => rw [foldl_xor_shift]

/-! ### BCD lemmas and claim C7 -/

theorem decodeBcdBytes_valid (bcd : List Nat)
    (h : ∀ b ∈ bcd, nibbleHigh b ≤ 9 ∧ nibbleLow b ≤ 9) :
    decodeBcdBytes bcd = some (bcdDigitString bcd) := by
  induction bcd with
  | nil => rfl
  | cons b t ih =>
    have hb := h b (List.mem_cons_self b t)
    have ht := ih (fun x hx => h x (List.mem_cons_of_mem b hx))
    simp only [decodeBcdBytes, bcdDigitString, List.foldr]
    rw [if_neg (by omega), ht]
    rfl

theorem decodeBcdBytes_invalid (bcd : List Nat)
    (h : ∃ b ∈ bcd, 9 < nibbleHigh b ∨ 9 < nibbleLow b) :
    decodeBcdBytes bcd = none := by
  induction bcd with
  | nil => simp at h
  | cons b t ih =>
    simp only [decodeBcdBytes]
    rcases h with ⟨x, hx, hbad⟩
    rcases List.mem_cons.mp hx with h1 | h2
    · subst h1; rw [if_pos hbad]
    · by_cases hb : 9 < nibbleHigh b ∨ 9 < nibbleLow b
      · rw [if_pos hb]
      · rw [if_neg hb, ih ⟨x, h2, hbad⟩]

/-- C7: packed-BCD decode of a valid byte range is the right-aligned digit
string (left-padded with 0 when short, left-truncated when long, in full when
the digit count is 0); any nibble above 9 fails; and the three concrete
decodings of 00 00 12 34 50 are as the spec states. -/
theorem packBcd_spec :
    (∀ (bcd : List Nat) (D : Nat),
      (∀ b ∈ bcd, nibbleHigh b ≤ 9 ∧ nibbleLow b ≤ 9) →
      packBcdToAscii bcd D
        = some (if D = 0 then bcdDigitString bcd
            else List.replicate (D - (bcdDigitString bcd).length) '0' ++
              (bcdDigitString bcd).drop ((bcdDigitString bcd).length - D)))
    ∧ (∀ (bcd : List Nat) (D : Nat),
        (∃ b ∈ bcd, 9 < nibbleHigh b ∨ 9 < nibbleLow b) →
        packBcdToAscii bcd D = none)
    ∧ packBcdToAscii [0x00, 0x00, 0x12, 0x34, 0x50] 10 = some ("0000123450".toList)
    ∧ packBcdToAscii [0x00, 0x00, 0x12, 0x34, 0x50] 5 = some ("23450".toList)
    ∧ packBcdToAscii [0x00, 0x00, 0x12, 0x34, 0x50] 0 = some ("0000123450".toList) := by
  refine ⟨?_, ?_, by decide, by decide, by decide⟩
  · intro bcd D h
    unfold packBcdToAscii
    rw [decodeBcdBytes_valid bcd h, Option.map_some']
    refine congrArg some ?_
    by_cases h0 : D = 0
    · simp [h0]
    · rw [if_neg h0, if_neg h0]
      by_cases hlt : (bcdDigitString bcd).length < D
      · rw [if_pos hlt]
        have hz : (bcdDigitString bcd).length - D = 0 := by omega
        rw [hz, List.drop_zero]
      · rw [if_neg hlt]
        by_cases hgt : D < (bcdDigitString bcd).length
        · rw [if_pos hgt]
          have hz : D - (bcdDigitString bcd).length = 0 := by omega
          rw [hz, List.replicate_zero, List.nil_append]
        · rw [if_neg hgt]
          have hD : D - (bcdDigitString bcd).length = 0 := by omega
          have hL : (bcdDigitString bcd).length - D = 0 := by omega
          rw [hD, hL, List.replicate_zero, List.nil_append, List.drop_zero]
  · intro bcd D h
    unfold packBcdToAscii
    rw [decodeBcdBytes_invalid bcd h]
    rfl

/-- Witness for C7: the valid-input branch applied to the concrete spec
scenario S2 (digit count 10). -/
theorem packBcd_spec_witness :
    packBcdToAscii [0x00, 0x00, 0x12, 0x34, 0x50] 10 = some ("0000123450".toList) := by
  have h := packBcd_spec.1 [0x00, 0x00, 0x12, 0x34, 0x50] 10 (by decide)
  simpa using h

/-! ### Claim C10 — sign application -/

/-- C10: a non-minus sign returns the magnitude unchanged; a minus sign
negates exactly the strictly positive magnitudes, leaving zero and negative
magnitudes (including the reserved market-order value) unchanged; sign
application never turns a non-positive price positive and is idempotent. -/
theorem apply_sign_spec :
    (∀ (m : Int) (c : Char), c ≠ '-' → apply_sign_to_price m c = m)
    ∧ (∀ m : Int, 0 < m → apply_sign_to_price m '-' = -m)
    ∧ (∀ m : Int, m ≤ 0 → apply_sign_to_price m '-' = m)
    ∧ apply_sign_to_price (-999999999) '-' = -999999999
    ∧ (∀ (m : Int) (c : Char), m ≤ 0 → apply_sign_to_price m c ≤ 0)
    ∧ (∀ (m : Int) (c : Char),
        apply_sign_to_price (apply_sign_to_price m c) c = apply_sign_to_price m c) := by
  refine ⟨?_, ?_, ?_, by decide, ?_, ?_⟩
  · intro m c hc; simp [apply_sign_to_price, hc]
  · intro m hm; simp [apply_sign_to_price, hm]
  · intro m hm
    have h2 : ¬ (0 : Int) < m := by omega
    simp [apply_sign_to_price, h2]
  · intro m c hm
    unfold apply_sign_to_price
    split
    · split <;> omega
    · omega
  · intro m c
    unfold apply_sign_to_price
    split
    · split
      · rw [if_neg (by omega)]
      · rfl
    · rfl

/-- Witness for C10: the hypothesis-bearing conjuncts applied at concrete
prices. -/
theorem apply_sign_spec_witness :
    apply_sign_to_price 5 '0' = 5
    ∧ apply_sign_to_price 5 '-' = -5
    ∧ apply_sign_to_price (-3) '-' = -3
    ∧ apply_sign_to_price (-3) '0' ≤ 0 := by
  exact ⟨apply_sign_spec.1 5 '0' (by decide),
    apply_sign_spec.2.1 5 (by decide),
    apply_sign_spec.2.2.1 (-3) (by decide),
    apply_sign_spec.2.2.2.2.1 (-3) '0' (by decide)⟩

/-! ### Claim C1 — process_message never reaches the Book Engine -/

/-- C1: for every SDK state and every input frame — in particular every frame
that passes length and checksum validation — `process_message` leaves the
order-book map and the product-info cache untouched: the body-dispatch step of
the pipeline is commented out in the source, so no parsed record is ever
applied to a book and a subsequent `get_order_book` cannot reflect the
frame's entries. -/
theorem process_message_no_book_mutation :
    ∀ (st : SdkState) (raw : List Nat),
      (process_message st raw).order_books = st.order_books
      ∧ (process_message st raw).product_info_cache = st.product_info_cache := by
  intro st raw
  unfold process_message
  constructor <;>
  · repeat first
    | rfl
    | split

/-! ### Claim C2 — apply_update does not drop stale sequences -/

/-- C2: evaluation of `apply_update` at the failing input. The record's
sequence 3 is below the book's last-applied sequence 5, yet the entry loop
still runs (the short-circuit `return` is commented out in the source): the
bid map gains the entry, so the book is not bitwise unchanged; only the
sequence field itself is left at 5. -/
theorem apply_update_stale_seq_mutates :
    (staleSeqBook.apply_update staleSeqUpdate).bids = [(100, 10)]
    ∧ (staleSeqBook.apply_update staleSeqUpdate).last_prod_msg_seq = 5
    ∧ staleSeqBook.apply_update staleSeqUpdate ≠ staleSeqBook := by
  refine ⟨by decide, by decide, by decide⟩

/-! ### Claim C5 — per-channel sequence tracker -/

/-- C5: the tracker's branch behavior (FirstSeen records the observed value,
in-order and gap observations advance the record, replays leave it unchanged,
SequenceReset forces it to 0), monotonicity of the recorded value outside
resets, and the concrete scenario S3 on channel 7 with final recorded value
15 and gap count 14 − 12 = 2. -/
theorem sequence_tracker_spec :
    (∀ (chans : List (Nat × Nat)) (ch s : Nat), alFind ch chans = none →
      is_sequence_valid chans ch s = (.FirstSeen s, true, alSet ch s chans))
    ∧ (∀ (chans : List (Nat × Nat)) (ch s e : Nat), alFind ch chans = some e →
      s = e + 1 → is_sequence_valid chans ch s = (.InOrder, true, alSet ch s chans))
    ∧ (∀ (chans : List (Nat × Nat)) (ch s e : Nat), alFind ch chans = some e →
      s ≤ e → is_sequence_valid chans ch s = (.Replay, false, chans))
    ∧ (∀ (chans : List (Nat × Nat)) (ch s e : Nat), alFind ch chans = some e →
      e + 1 < s →
      is_sequence_valid chans ch s = (.Gap (e + 1) s, false, alSet ch s chans))
    ∧ (∀ (st : SdkState) (ch : Nat),
      alFind ch (handle_i002 st ch).channel_sequences = some 0)
    ∧ (∀ (chans : List (Nat × Nat)) (ch s e : Nat), alFind ch chans = some e →
      ∃ e', alFind ch (is_sequence_valid chans ch s).2.2 = some e' ∧ e ≤ e')
    ∧ runSequence 7 [] [10, 11, 11, 14, 15]
        = ([.FirstSeen 10, .InOrder, .Replay, .Gap 12 14, .InOrder], [(7, 15)])
    ∧ 14 - 12 = 2 := by
  refine ⟨?_, ?_, ?_, ?_, ?_, ?_, by decide, rfl⟩
  · intro chans ch s h
    unfold is_sequence_valid
    rw [h]
  · intro chans ch s e h hs
    unfold is_sequence_valid
    rw [h]
    dsimp only
    rw [if_pos hs]
  · intro chans ch s e h hs
    unfold is_sequence_valid
    rw [h]
    dsimp only
    rw [if_neg (by omega), if_pos hs]
  · intro chans ch s e h hs
    unfold is_sequence_valid
    rw [h]
    dsimp only
    rw [if_neg (by omega), if_neg (by omega)]
  · intro st ch
    unfold handle_i002
    simp [alFind_alSet]
  · intro chans ch s e h
    unfold is_sequence_valid
    rw [h]
    dsimp only
    by_cases h1 : s = e + 1
    · rw [if_pos h1]
      exact ⟨s, by simp [alFind_alSet], by omega⟩
    · rw [if_neg h1]
      by_cases h2 : s ≤ e
      · rw [if_pos h2]
        exact ⟨e, h, le_refl e⟩
      · rw [if_neg h2]
        exact ⟨s, by simp [alFind_alSet], by omega⟩

/-- Witness for C5: the gap branch and the monotonicity conjunct applied at a
concrete map and observation. -/
theorem sequence_tracker_spec_witness :
    is_sequence_valid [(7, 11)] 7 14 = (.Gap 12 14, false, [(7, 14)])
    ∧ (∃ e', alFind 7 (is_sequence_valid [(7, 11)] 7 14).2.2 = some e' ∧ 11 ≤ e') := by
  constructor
  · have h := sequence_tracker_spec.2.2.2.1 [(7, 11)] 7 14 11 (by decide) (by decide)
    rw [h]
    decide
  · exact sequence_tracker_spec.2.2.2.2.2.1 [(7, 11)] 7 14 11 (by decide)

/-! ### Claim C9 — login check code -/

/-- C9 counterexample: a 19-nines digit password exceeds `LLONG_MAX`, so
`std::stoll` throws `out_of_range` and `calculate_check_code` returns 0, while
the claimed exact formula gives 98. -/
theorem check_code_counterexample :
    calculate_check_code 168 ("9999999999999999999".toList) = 0
    ∧ (168 * digitsToNat ("9999999999999999999".toList) / 100) % 100 = 98
    ∧ (0 : Nat) ≠ 98 := by
  refine ⟨by decide, by decide, by decide⟩

/-- C9 (amended): for every multiplication operator and digit-only password
whose numeric value — and its product with the operator — fits in a signed
64-bit integer, the computed check code is exactly
`((mult_op * value) / 100) % 100`; with operator 168 and password 1234 the
LoginRequest carries check code 73. -/
theorem check_code_spec :
    (∀ (mult_op : Nat) (password : List Char), password ≠ [] →
      digitsToNat password ≤ 9223372036854775807 →
      mult_op * digitsToNat password ≤ 9223372036854775807 →
      calculate_check_code mult_op password
        = (mult_op * digitsToNat password / 100) % 100)
    ∧ digitsToNat ("1234".toList) = 1234
    ∧ calculate_check_code 168 ("1234".toList) = 73
    ∧ perform_login_check_code ("1234".toList) = 73 := by
  refine ⟨?_, by decide, by decide, by decide⟩
  intro m pw hne hfit _hprod
  unfold calculate_check_code
  rw [if_neg hne, if_neg (by omega)]

/-- Witness for C9: the amended formula applied at the concrete S6 input. -/
theorem check_code_spec_witness :
    calculate_check_code 168 ("1234".toList)
      = (168 * digitsToNat ("1234".toList) / 100) % 100 :=
  check_code_spec.1 168 ("1234".toList) (by decide) (by decide) (by decide)

/-! ### Snapshot lemmas and claim C3 -/

theorem applySnapshotEntry_bids_find (flag : Char) (b : OrderBook)
    (e : MdEntryI083) (p : Int) :
    alFind p (b.applySnapshotEntry flag e).bids
      = if e.md_entry_type = '0' ∧ 0 < entryQty e ∧ p = signedPx e
        then some (entryQty e) else alFind p b.bids := by
  unfold OrderBook.applySnapshotEntry
  simp only [entryQty, signedPx]
  by_cases h0 : e.md_entry_type = '0'
  · rw [if_pos h0]
    by_cases hq : 0 < toQuantity e.md_entry_size
    · rw [if_pos hq]
      dsimp only
      rw [alFind_alSet]
      by_cases hp : p = apply_sign_to_price e.md_entry_px e.sign
      · rw [if_pos hp, if_pos ⟨h0, hq, hp⟩]
      · have hnc : ¬(e.md_entry_type = '0' ∧ 0 < toQuantity e.md_entry_size
            ∧ p = apply_sign_to_price e.md_entry_px e.sign) := fun hc => hp hc.2.2
        rw [if_neg hp, if_neg hnc]
    · have hnc : ¬(e.md_entry_type = '0' ∧ 0 < toQuantity e.md_entry_size
          ∧ p = apply_sign_to_price e.md_entry_px e.sign) := fun hc => hq hc.2.1
      rw [if_neg hq, if_neg hnc]
  · have hnc : ¬(e.md_entry_type = '0' ∧ 0 < toQuantity e.md_entry_size
        ∧ p = apply_sign_to_price e.md_entry_px e.sign) := fun hc => h0 hc.1
    rw [if_neg h0, if_neg hnc]
    split_ifs <;> rfl

theorem applySnapshotEntry_asks_find (flag : Char) (b : OrderBook)
    (e : MdEntryI083) (p : Int) :
    alFind p (b.applySnapshotEntry flag e).asks
      = if e.md_entry_type = '1' ∧ 0 < entryQty e ∧ p = signedPx e
        then some (entryQty e) else alFind p b.asks := by
  unfold OrderBook.applySnapshotEntry
  simp only [entryQty, signedPx]
  by_cases h1 : e.md_entry_type = '1'
  · have h0 : ¬ e.md_entry_type = '0' := by rw [h1]; decide
    rw [if_neg h0, if_pos h1]
    by_cases hq : 0 < toQuantity e.md_entry_size
    · rw [if_pos hq]
      dsimp only
      rw [alFind_alSet]
      by_cases hp : p = apply_sign_to_price e.md_entry_px e.sign
      · rw [if_pos hp, if_pos ⟨h1, hq, hp⟩]
      · have hnc : ¬(e.md_entry_type = '1' ∧ 0 < toQuantity e.md_entry_size
            ∧ p = apply_sign_to_price e.md_entry_px e.sign) := fun hc => hp hc.2.2
        rw [if_neg hp, if_neg hnc]
    · have hnc : ¬(e.md_entry_type = '1' ∧ 0 < toQuantity e.md_entry_size
          ∧ p = apply_sign_to_price e.md_entry_px e.sign) := fun hc => hq hc.2.1
      rw [if_neg hq, if_neg hnc]
  · have hnc : ¬(e.md_entry_type = '1' ∧ 0 < toQuantity e.md_entry_size
        ∧ p = apply_sign_to_price e.md_entry_px e.sign) := fun hc => h1 hc.1
    rw [if_neg hnc]
    split_ifs <;> rfl

theorem snapshot_fold_bids_find (flag : Char) (p : Int) :
    ∀ (l : List MdEntryI083) (b : OrderBook),
      alFind p (l.foldl (OrderBook.applySnapshotEntry flag) b).bids
        = match lastPositiveQty '0' p l with
          | some q => some q
          | none => alFind p b.bids := by
  intro l
  induction l with
  | nil => intro b; rfl
  | cons e t ih =>
    intro b
    simp only [List.foldl]
    rw [ih (b.applySnapshotEntry flag e)]
    cases hlt : lastPositiveQty '0' p t with
    | some q =>
      have hcons : lastPositiveQty '0' p (e :: t) = some q := by
        unfold lastPositiveQty
        rw [hlt]
      rw [hcons]
    | none =>
      have hcons : lastPositiveQty '0' p (e :: t)
          = if e.md_entry_type = '0' ∧ 0 < entryQty e ∧ p = signedPx e
            then some (entryQty e) else none := by
        unfold lastPositiveQty
        rw [hlt]
      rw [hcons, applySnapshotEntry_bids_find]
      by_cases hc : e.md_entry_type = '0' ∧ 0 < entryQty e ∧ p = signedPx e
      · rw [if_pos hc, if_pos hc]
      · rw [if_neg hc, if_neg hc]

theorem snapshot_fold_asks_find (flag : Char) (p : Int) :
    ∀ (l : List MdEntryI083) (b : OrderBook),
      alFind p (l.foldl (OrderBook.applySnapshotEntry flag) b).asks
        = match lastPositiveQty '1' p l with
          | some q => some q
          | none => alFind p b.asks := by
  intro l
  induction l with
  | nil => intro b; rfl
  | cons e t ih =>
    intro b
    simp only [List.foldl]
    rw [ih (b.applySnapshotEntry flag e)]
    cases hlt : lastPositiveQty '1' p t with
    | some q =>
      have hcons : lastPositiveQty '1' p (e :: t) = some q := by
        unfold lastPositiveQty
        rw [hlt]
      rw [hcons]
    | none =>
      have hcons : lastPositiveQty '1' p (e :: t)
          = if e.md_entry_type = '1' ∧ 0 < entryQty e ∧ p = signedPx e
            then some (entryQty e) else none := by
        unfold lastPositiveQty
        rw [hlt]
      rw [hcons, applySnapshotEntry_asks_find]
      by_cases hc : e.md_entry_type = '1' ∧ 0 < entryQty e ∧ p = signedPx e
      · rw [if_pos hc, if_pos hc]
      · rw [if_neg hc, if_neg hc]

theorem apply_snapshot_bids_find (b : OrderBook) (m : MessageI083) (p : Int) :
    alFind p (b.apply_snapshot m).bids
      = match lastPositiveQty '0' p m.md_entries with
        | some q => some q
        | none => none := by
  unfold OrderBook.apply_snapshot
  dsimp only
  rw [snapshot_fold_bids_find]
  cases lastPositiveQty '0' p m.md_entries <;> rfl

theorem apply_snapshot_asks_find (b : OrderBook) (m : MessageI083) (p : Int) :
    alFind p (b.apply_snapshot m).asks
      = match lastPositiveQty '1' p m.md_entries with
        | some q => some q
        | none => none := by
  unfold OrderBook.apply_snapshot
  dsimp only
  rw [snapshot_fold_asks_find]
  cases lastPositiveQty '1' p m.md_entries <;> rfl

theorem applySnapshotEntry_last_seq (flag : Char) (b : OrderBook)
    (e : MdEntryI083) :
    (b.applySnapshotEntry flag e).last_prod_msg_seq = b.last_prod_msg_seq := by
  unfold OrderBook.applySnapshotEntry
  dsimp only
  split_ifs <;> rfl

theorem snapshot_fold_last_seq (flag : Char) :
    ∀ (l : List MdEntryI083) (b : OrderBook),
      (l.foldl (OrderBook.applySnapshotEntry flag) b).last_prod_msg_seq
        = b.last_prod_msg_seq := by
  intro l
  induction l with
  | nil => intro b; rfl
  | cons e t ih =>
    intro b
    simp only [List.foldl]
    rw [ih, applySnapshotEntry_last_seq]

theorem applySnapshotEntry_derived (flag : Char) (hflag : flag ≠ '0')
    (b : OrderBook) (e : MdEntryI083) :
    (b.applySnapshotEntry flag e).derived_bid = b.derived_bid
    ∧ (b.applySnapshotEntry flag e).derived_ask = b.derived_ask := by
  constructor <;>
  · unfold OrderBook.applySnapshotEntry
    dsimp only
    split_ifs <;> rfl

theorem snapshot_fold_derived (flag : Char) (hflag : flag ≠ '0') :
    ∀ (l : List MdEntryI083) (b : OrderBook),
      (l.foldl (OrderBook.applySnapshotEntry flag) b).derived_bid = b.derived_bid
      ∧ (l.foldl (OrderBook.applySnapshotEntry flag) b).derived_ask = b.derived_ask := by
  intro l
  induction l with
  | nil => intro b; exact ⟨rfl, rfl⟩
  | cons e t ih =>
    intro b
    simp only [List.foldl]
    constructor
    · rw [(ih _).1, (applySnapshotEntry_derived flag hflag b e).1]
    · rw [(ih _).2, (applySnapshotEntry_derived flag hflag b e).2]

theorem lastPositiveQty_some (ty : Char) (p : Int) :
    ∀ (l : List MdEntryI083) (q : Nat), lastPositiveQty ty p l = some q →
      ∃ e ∈ l, e.md_entry_type = ty ∧ 0 < entryQty e ∧ p = signedPx e
        ∧ entryQty e = q := by
  intro l
  induction l with
  | nil => intro q h; simp [lastPositiveQty] at h
  | cons e t ih =>
    intro q h
    unfold lastPositiveQty at h
    cases hlt : lastPositiveQty ty p t with
    | some q' =>
      rw [hlt] at h
      dsimp only at h
      injection h with h
      subst h
      obtain ⟨e', he', hx⟩ := ih q' hlt
      exact ⟨e', List.mem_cons_of_mem _ he', hx⟩
    | none =>
      rw [hlt] at h
      dsimp only at h
      by_cases hc : e.md_entry_type = ty ∧ 0 < entryQty e ∧ p = signedPx e
      · rw [if_pos hc] at h
        injection h with h
        exact ⟨e, List.mem_cons_self e t, hc.1, hc.2.1, hc.2.2, h⟩
      · rw [if_neg hc] at h
        exact absurd h (by simp)

theorem lastPositiveQty_none (ty : Char) (p : Int) :
    ∀ (l : List MdEntryI083), lastPositiveQty ty p l = none →
      ∀ e ∈ l, ¬(e.md_entry_type = ty ∧ 0 < entryQty e ∧ p = signedPx e) := by
  intro l
  induction l with
  | nil => intro _ e he; simp at he
  | cons e0 t ih =>
    intro h e he
    unfold lastPositiveQty at h
    cases hlt : lastPositiveQty ty p t with
    | some q' =>
      rw [hlt] at h
      dsimp only at h
      exact absurd h (by simp)
    | none =>
      rw [hlt] at h
      dsimp only at h
      rcases List.mem_cons.mp he with rfl | he'
      · intro hc
        rw [if_pos hc] at h
        exact absurd h (by simp)
      · exact ih hlt e he'

theorem lastPositiveQty_mem (ty : Char) (p : Int) :
    ∀ (l : List MdEntryI083) (e : MdEntryI083), e ∈ l →
      e.md_entry_type = ty → 0 < entryQty e → p = signedPx e →
      (∀ e1 ∈ l, ∀ e2 ∈ l, e1.md_entry_type = ty → e2.md_entry_type = ty →
        0 < entryQty e1 → 0 < entryQty e2 → signedPx e1 = signedPx e2 →
        entryQty e1 = entryQty e2) →
      lastPositiveQty ty p l = some (entryQty e) := by
  intro l
  induction l with
  | nil => intro e he; simp at he
  | cons e0 t ih =>
    intro e he hty hq hp hdist
    unfold lastPositiveQty
    cases hlt : lastPositiveQty ty p t with
    | some q' =>
      obtain ⟨e', he', hty', hq', hp', hqe'⟩ := lastPositiveQty_some ty p t q' hlt
      dsimp only
      have hsp : signedPx e' = signedPx e := by rw [← hp', ← hp]
      have hqq : entryQty e' = entryQty e :=
        hdist e' (List.mem_cons_of_mem _ he') e he hty' hty hq' hq hsp
      rw [← hqe', hqq]
    | none =>
      dsimp only
      rcases List.mem_cons.mp he with rfl | he'
      · rw [if_pos ⟨hty, hq, hp⟩]
      · exact absurd ⟨hty, hq, hp⟩ (lastPositiveQty_none ty p t hlt e he')

/-- C3 (amended): for every order book and snapshot record whose entries give
at most one positive size per (type, signed price) pair — as the protocol
guarantees —, after `apply_snapshot` the last-applied sequence equals the
record's sequence, the bid (resp. ask) map holds exactly the Buy (resp. Sell)
entries with positive size keyed by signed price, and with
`calculated_flag = '1'` the derived entries have no effect: both derived
slots are empty. -/
theorem apply_snapshot_spec :
    ∀ (b : OrderBook) (m : MessageI083),
      (∀ e1 ∈ m.md_entries, ∀ e2 ∈ m.md_entries,
        e1.md_entry_type = e2.md_entry_type → 0 < entryQty e1 → 0 < entryQty e2 →
        signedPx e1 = signedPx e2 → entryQty e1 = entryQty e2) →
      (b.apply_snapshot m).last_prod_msg_seq = m.prod_msg_seq
      ∧ (m.calculated_flag = '1' →
          (b.apply_snapshot m).derived_bid = none
          ∧ (b.apply_snapshot m).derived_ask = none)
      ∧ (∀ (p : Int) (q : Nat),
          alFind p (b.apply_snapshot m).bids = some q
            ↔ ∃ e ∈ m.md_entries, e.md_entry_type = '0' ∧ signedPx e = p
                ∧ entryQty e = q ∧ 0 < q)
      ∧ (∀ (p : Int) (q : Nat),
          alFind p (b.apply_snapshot m).asks = some q
            ↔ ∃ e ∈ m.md_entries, e.md_entry_type = '1' ∧ signedPx e = p
                ∧ entryQty e = q ∧ 0 < q) := by
  intro b m hdist
  refine ⟨?_, ?_, ?_, ?_⟩
  · unfold OrderBook.apply_snapshot
    dsimp only
    rw [snapshot_fold_last_seq]
  · intro hflag
    have hne : m.calculated_flag ≠ '0' := by rw [hflag]; decide
    unfold OrderBook.apply_snapshot
    dsimp only
    exact ⟨(snapshot_fold_derived m.calculated_flag hne m.md_entries _).1,
           (snapshot_fold_derived m.calculated_flag hne m.md_entries _).2⟩
  · intro p q
    rw [apply_snapshot_bids_find]
    constructor
    · intro h
      cases hlt : lastPositiveQty '0' p m.md_entries with
      | some q' =>
        rw [hlt] at h
        dsimp only at h
        injection h with h
        subst h
        obtain ⟨e, he, hty, hq, hp, hqe⟩ :=
          lastPositiveQty_some '0' p m.md_entries q' hlt
        exact ⟨e, he, hty, hp.symm, hqe, hqe ▸ hq⟩
      | none =>
        rw [hlt] at h
        exact absurd h (by simp)
    · rintro ⟨e, he, hty, hp, hqe, hqpos⟩
      have hlm := lastPositiveQty_mem '0' p m.md_entries e he hty
        (by rw [hqe]; exact hqpos) hp.symm
        (fun e1 h1 e2 h2 ht1 ht2 => hdist e1 h1 e2 h2 (ht1.trans ht2.symm))
      rw [hlm]
      dsimp only
      rw [hqe]
  · intro p q
    rw [apply_snapshot_asks_find]
    constructor
    · intro h
      cases hlt : lastPositiveQty '1' p m.md_entries with
      | some q' =>
        rw [hlt] at h
        dsimp only at h
        injection h with h
        subst h
        obtain ⟨e, he, hty, hq, hp, hqe⟩ :=
          lastPositiveQty_some '1' p m.md_entries q' hlt
        exact ⟨e, he, hty, hp.symm, hqe, hqe ▸ hq⟩
      | none =>
        rw [hlt] at h
        exact absurd h (by simp)
    · rintro ⟨e, he, hty, hp, hqe, hqpos⟩
      have hlm := lastPositiveQty_mem '1' p m.md_entries e he hty
        (by rw [hqe]; exact hqpos) hp.symm
        (fun e1 h1 e2 h2 ht1 ht2 => hdist e1 h1 e2 h2 (ht1.trans ht2.symm))
      rw [hlm]
      dsimp only
      rw [hqe]

/-- C3 counterexample: a snapshot that lists the same Buy price twice with
positive sizes 5 then 3 produces a bid map whose only entry at that price has
size 3, so the map does not contain the (price, size 5) entry even though it
is a Buy entry of the snapshot with size strictly greater than 0 — the claim
as stated fails. -/
theorem apply_snapshot_counterexample :
    alFind 1 (dupSnapBook.apply_snapshot dupSnapMsg).bids = some 3
    ∧ (∃ e ∈ dupSnapMsg.md_entries, e.md_entry_type = '0' ∧ signedPx e = 1
        ∧ entryQty e = 5 ∧ 0 < (5 : Nat))
    ∧ alFind 1 (dupSnapBook.apply_snapshot dupSnapMsg).bids ≠ some 5 := by
  refine ⟨by decide, by decide, by decide⟩

/-- Witness for C3: the amended theorem applied to the S4 snapshot. -/
theorem apply_snapshot_spec_witness :
    (snapBookS4.apply_snapshot snapMsgS4).last_prod_msg_seq = 100
    ∧ alFind 10025 (snapBookS4.apply_snapshot snapMsgS4).bids = some 10
    ∧ alFind 10050 (snapBookS4.apply_snapshot snapMsgS4).asks = some 12 := by
  have h := apply_snapshot_spec snapBookS4 snapMsgS4 (by decide)
  refine ⟨h.1, ?_, ?_⟩
  · exact (h.2.2.1 10025 10).mpr (by decide)
  · exact (h.2.2.2 10050 12).mpr (by decide)

/-! ### Claim C4 — short-id derivation and the MissingProductInfo drop -/

/-- C4 counterexample: for the space-padded 20-char product id TXFA3 the code
takes the raw first 10 characters, trailing spaces included, because the trim
calls are commented out — it does not equal the trimmed short id the claim
describes. -/
theorem short_id_counterexample :
    get_base_prod_id_for_i010_lookup ("TXFA3               ".toList)
      = ("TXFA3     ".toList)
    ∧ trimTrailingSpaces ("TXFA3     ".toList) = ("TXFA3".toList)
    ∧ get_base_prod_id_for_i010_lookup ("TXFA3               ".toList)
      ≠ trimTrailingSpaces (("TXFA3               ".toList).take 10) := by
  refine ⟨by decide, by decide, by decide⟩

/-- C4 (amended): the short id used for the Product Basic lookup is the
portion before the first slash when one exists, otherwise the first 10
characters when the id is longer than 10, otherwise the id itself — in every
case without trimming trailing spaces (the product-info cache keys are the
equally untrimmed 10-char ids stored by `handle_i010`); and when no order
book exists under the full id and no Product Basic Record exists under the
derived short id, the update and snapshot handlers create no book and mutate
nothing: the state comes back unchanged. -/
theorem short_id_and_missing_info_spec :
    (∀ (pid : List Char) (i : Nat), pid.findIdx? (· = '/') = some i →
      get_base_prod_id_for_i010_lookup pid = pid.take i)
    ∧ (∀ pid : List Char, pid.findIdx? (· = '/') = none → 10 < pid.length →
      get_base_prod_id_for_i010_lookup pid = pid.take 10)
    ∧ (∀ pid : List Char, pid.findIdx? (· = '/') = none → pid.length ≤ 10 →
      get_base_prod_id_for_i010_lookup pid = pid)
    ∧ (∀ (st : SdkState) (m : MessageI081),
      alFind m.prod_id st.order_books = none →
      alFind (get_base_prod_id_for_i010_lookup m.prod_id) st.product_info_cache
        = none →
      handle_i081 st m = st)
    ∧ (∀ (st : SdkState) (m : MessageI083),
      alFind m.prod_id st.order_books = none →
      alFind (get_base_prod_id_for_i010_lookup m.prod_id) st.product_info_cache
        = none →
      handle_i083 st m = st) := by
  refine ⟨?_, ?_, ?_, ?_, ?_⟩
  · intro pid i h
    unfold get_base_prod_id_for_i010_lookup
    rw [h]
  · intro pid h hl
    unfold get_base_prod_id_for_i010_lookup
    rw [h]
    dsimp only
    rw [if_pos hl]
  · intro pid h hl
    unfold get_base_prod_id_for_i010_lookup
    rw [h]
    dsimp only
    rw [if_neg (by omega)]
  · intro st m h1 h2
    unfold handle_i081 get_or_create_order_book
    rw [h1]
    dsimp only
    rw [h2]
  · intro st m h1 h2
    unfold handle_i083 get_or_create_order_book
    rw [h1]
    dsimp only
    rw [h2]

/-- Witness for C4: the slash-derivation branch and the MissingProductInfo
drop applied at concrete inputs. -/
theorem short_id_and_missing_info_spec_witness :
    get_base_prod_id_for_i010_lookup ("AB/CD".toList) = ("AB/CD".toList).take 2
    ∧ handle_i081
        { initialized := true, product_info_cache := [], order_books := [],
          channel_sequences := [] }
        { prod_id := ("NOINFO".toList), prod_msg_seq := 1, no_md_entries := 0,
          md_entries := [] }
      = { initialized := true, product_info_cache := [], order_books := [],
          channel_sequences := [] } := by
  constructor
  · exact short_id_and_missing_info_spec.1 ("AB/CD".toList) 2 (by decide)
  · exact short_id_and_missing_info_spec.2.2.2.1 _ _ (by decide) (by decide)

/-! ### Claim C8 — I081 length/entry-count consistency -/

theorem parse_i081_entries_length :
    ∀ (n : Nat) (bytes : List Nat) (es : List MdEntryI081),
      parse_i081_entries n bytes = some es → es.length = n := by
  intro n
  induction n with
  | zero =>
    intro bytes es h
    unfold parse_i081_entries at h
    injection h with h
    subst h
    rfl
  | succ k ih =>
    intro bytes es h
    unfold parse_i081_entries at h
    cases he : parse_i081_entry (bytes.take 13) with
    | none => rw [he] at h; simp at h
    | some e =>
      rw [he] at h
      dsimp only at h
      cases ht : parse_i081_entries k (bytes.drop 13) with
      | none => rw [ht] at h; simp at h
      | some es' =>
        rw [ht] at h
        dsimp only at h
        injection h with h
        subst h
        simp [ih (bytes.drop 13) es' ht]

/-- C8 (amended): `parse_i081_body` succeeds only when the body is at least
26 + 13·entry_count bytes long — every shorter body fails, which is the
entry-count consistency failure — and a successful parse carries exactly the
declared number of entries. Bodies longer than 26 + 13·entry_count are
accepted with the trailing bytes ignored, so exact length equality is not
enforced (see the counterexample). -/
theorem parse_i081_length_spec :
    ∀ (body : List Nat) (m : MessageI081), parse_i081_body body = some m →
      26 + 13 * m.no_md_entries ≤ body.length
      ∧ m.md_entries.length = m.no_md_entries := by
  intro body m h
  unfold parse_i081_body at h
  by_cases h26 : body.length < 26
  · rw [if_pos h26] at h; simp at h
  · rw [if_neg h26] at h
    cases hp : bcdFieldValue ((body.drop 20).take 5) 10 with
    | none => rw [hp] at h; simp at h
    | some pms =>
      rw [hp] at h
      dsimp only at h
      cases hn : bcdFieldValue ((body.drop 25).take 1) 2 with
      | none => rw [hn] at h; simp at h
      | some nme =>
        rw [hn] at h
        dsimp only at h
        by_cases hlen : body.length < 26 + nme * 13
        · rw [if_pos hlen] at h; simp at h
        · rw [if_neg hlen] at h
          cases he : parse_i081_entries nme (body.drop 26) with
          | none => rw [he] at h; simp at h
          | some es =>
            rw [he] at h
            simp only [Option.map_some'] at h
            injection h with h
            subst h
            refine ⟨by dsimp only; omega, ?_⟩
            dsimp only
            exact parse_i081_entries_length nme (body.drop 26) es he

/-- C8 counterexample: a 27-byte all-zero body declares 0 entries, for which
the consistent body length would be 26, yet parsing succeeds — the parser
only requires the body to be long enough, it never rejects extra bytes. -/
theorem parse_i081_counterexample :
    parse_i081_body (List.replicate 27 0) = some zeroI081Msg
    ∧ (List.replicate 27 0).length ≠ 26 + 13 * zeroI081Msg.no_md_entries := by
  refine ⟨by decide, by decide⟩

/-- Witness for C8: the amended theorem applied to the minimal all-zero
26-byte body. -/
theorem parse_i081_length_spec_witness :
    26 + 13 * zeroI081Msg.no_md_entries ≤ (List.replicate 26 0).length
    ∧ zeroI081Msg.md_entries.length = zeroI081Msg.no_md_entries :=
  parse_i081_length_spec (List.replicate 26 0) zeroI081Msg (by decide)

end TaifexModel
